import Mathlib

/-!
# SmartLedger — shallow embedding of the transaction aggregation code

This file embeds the data model, store operations, aggregation engine and
the AI-bridge request construction of `src/types.ts` as executable Lean
definitions, and proves the specification claims about them.

Modelling conventions:
* JS numbers carrying transaction amounts are modelled as `Int`; where the
  source divides (savings rate, category percentages) the computation is
  carried out in `ℚ` and a result that would be non-finite in JS
  (`NaN`/`±Infinity`, arising exactly when the denominator is `0`) is
  modelled as `none`.
* JS `Math.round` is `round : ℚ → ℤ` (both are `⌊x + 1/2⌋`).
* JS string prefix matching (`String.prototype.startsWith`) is modelled on
  the character lists of the strings.
* The nondeterministic inputs of `addTransaction` (the generated id and
  today's date) are explicit parameters.
-/

namespace SmartLedger

/-- The `TransactionType` union type of `src/types.ts`. -/
inductive TransactionType
  | income
  | expense
deriving DecidableEq, Repr

/-- The `Transaction` interface of `src/types.ts`. -/
structure Transaction where
  id : String
  date : String
  amount : Int
  category : String
  type : TransactionType
  note : String
deriving DecidableEq, Repr

/-- JS `s.startsWith(p)`, modelled on the character lists. -/
def jsStartsWith (s p : String) : Bool :=
  p.data.isPrefixOf s.data

/-- JS `Math.round((num / den) * 100)` on numbers modelled as exact
rationals; `none` models the non-finite JS result (`NaN` or `±Infinity`)
that arises exactly when the denominator is `0`. -/
def jsDivRound100 (num den : Int) : Option Int :=
  if den = 0 then none else some (round ((num : ℚ) / (den : ℚ) * 100))

/-- The `reduce((sum, t) => sum + t.amount, 0)` pattern used throughout
`src/types.ts` for totalling amounts. -/
def sumAmounts (l : List Transaction) : Int :=
  l.foldl (fun s t => s + t.amount) 0

/-- The derived `{ name, value }` entries fed to the pie charts
(CategoryAggregate in the specification's data model). -/
structure CategoryAggregate where
  name : String
  value : Int
deriving DecidableEq, Repr

/-- Sum of the `value` fields of a CategoryAggregate list. -/
def sumValues (l : List CategoryAggregate) : Int :=
  (l.map CategoryAggregate.value).sum

/-- One step of the `reduce` in `stats.categoryData` /
`reportStats.yearlyCategoryData`: if an entry with this name exists its
value is increased in place, otherwise a new entry is pushed at the end. -/
def addToCategory : List CategoryAggregate → String → Int → List CategoryAggregate
  | [], n, a => [{ name := n, value := a }]
  | c :: cs, n, a =>
      if c.name = n then { name := c.name, value := c.value + a } :: cs
      else c :: addToCategory cs n a

/-- The full `reduce` building the category aggregate list (first-seen
insertion order) from `src/types.ts` lines 189-199 and 224-234. -/
def categoryAggregate (l : List Transaction) : List CategoryAggregate :=
  l.foldl (fun acc t => addToCategory acc t.category t.amount) []

/-- Insertion step of the stable descending-by-value sort modelling
JS `.sort((a, b) => b.value - a.value)` (stable per ES2019): the inserted
element, which originates earlier in the list than the elements it is
inserted into, is placed before any element of equal value. -/
def insertByValueDesc (x : CategoryAggregate) : List CategoryAggregate → List CategoryAggregate
  | [] => [x]
  | y :: ys => if x.value < y.value then y :: insertByValueDesc x ys else x :: y :: ys

/-- Stable descending-by-value sort modelling
JS `.sort((a, b) => b.value - a.value)` on line 235 of `src/types.ts`. -/
def sortByValueDesc : List CategoryAggregate → List CategoryAggregate
  | [] => []
  | x :: xs => insertByValueDesc x (sortByValueDesc xs)

/-- Result shape of the `stats` memo (dashboard statistics),
`src/types.ts` lines 181-202. -/
structure DashboardStats where
  income : Int
  expense : Int
  balance : Int
  categoryData : List CategoryAggregate

/-- The dashboard `stats` computation of `src/types.ts` lines 181-202.
The reference month (`new Date().toISOString().substring(0, 7)` in the
source) is an explicit parameter. -/
def stats (transactions : List Transaction) (currentMonth : String) : DashboardStats :=
  let thisMonthTransactions := transactions.filter (fun t => jsStartsWith t.date currentMonth)
  let income := sumAmounts (thisMonthTransactions.filter (fun t => decide (t.type = TransactionType.income)))
  let expense := sumAmounts (thisMonthTransactions.filter (fun t => decide (t.type = TransactionType.expense)))
  { income := income
    expense := expense
    balance := income - expense
    categoryData := categoryAggregate (thisMonthTransactions.filter (fun t => decide (t.type = TransactionType.expense))) }

/-- JS `(i + 1).toString().padStart(2, '0')` for the month number. -/
def pad2 (n : Nat) : String :=
  let s := toString n
  if s.length < 2 then "0" ++ s else s

/-- One entry of `reportStats.monthlyData`. -/
structure MonthEntry where
  name : String
  income : Int
  expense : Int
deriving DecidableEq, Repr

/-- Result shape of the `reportStats` memo, `src/types.ts` lines 205-241. -/
structure ReportStats where
  monthlyData : List MonthEntry
  yearlyCategoryData : List CategoryAggregate
  totalYearIncome : Int
  totalYearExpense : Int

/-- The report statistics computation of `src/types.ts` lines 205-241. -/
def reportStats (transactions : List Transaction) (reportYear : Int) : ReportStats :=
  let yearStr := toString reportYear
  let yearTransactions := transactions.filter (fun t => jsStartsWith t.date yearStr)
  let monthlyData := (List.range 12).map (fun i =>
    let month := pad2 (i + 1)
    let monthPre := yearStr ++ "-" ++ month
    let monthTrans := yearTransactions.filter (fun t => jsStartsWith t.date monthPre)
    ({ name := month ++ "月"
       income := sumAmounts (monthTrans.filter (fun t => decide (t.type = TransactionType.income)))
       expense := sumAmounts (monthTrans.filter (fun t => decide (t.type = TransactionType.expense))) } : MonthEntry))
  let yearlyCategoryData :=
    sortByValueDesc (categoryAggregate (yearTransactions.filter (fun t => decide (t.type = TransactionType.expense))))
  { monthlyData := monthlyData
    yearlyCategoryData := yearlyCategoryData
    totalYearIncome := sumAmounts (yearTransactions.filter (fun t => decide (t.type = TransactionType.income)))
    totalYearExpense := sumAmounts (yearTransactions.filter (fun t => decide (t.type = TransactionType.expense))) }

/-- The savings-rate display of `src/types.ts` lines 507-510:
`totalYearIncome > 0 ? round(((inc - exp) / inc) * 100) : 0`.
`none` would model a non-finite displayed number. -/
def displayedSavingsRate (transactions : List Transaction) (reportYear : Int) : Option Int :=
  let rs := reportStats transactions reportYear
  if 0 < rs.totalYearIncome then
    jsDivRound100 (rs.totalYearIncome - rs.totalYearExpense) rs.totalYearIncome
  else some 0

/-- The per-category percentage display of `src/types.ts` lines 579-589:
`yearlyCategoryData.slice(0, 5)` rendered with
`Math.round((item.value / reportStats.totalYearExpense) * 100)`,
which is unguarded against `totalYearExpense == 0`. -/
def displayedCategoryPercents (transactions : List Transaction) (reportYear : Int) : List (Option Int) :=
  let rs := reportStats transactions reportYear
  (rs.yearlyCategoryData.take 5).map (fun item => jsDivRound100 item.value rs.totalYearExpense)

/-- The `Partial<Transaction>` candidate passed to `addTransaction`.
`none` on a string field models an absent (undefined) field; for the
amount, `none` models an absent field and `some none` a present value
whose `Number(...)` coercion is `NaN` (non-numeric). -/
structure CandidateTransaction where
  id : Option String
  date : Option String
  amount : Option (Option Int)
  category : Option String
  type : Option TransactionType
  note : Option String
deriving DecidableEq, Repr

/-- JS `s || d` for an optional string: `undefined` and the empty string
are falsy, so both fall back to the default. -/
def strOrDefault (o : Option String) (d : String) : String :=
  match o with
  | none => d
  | some s => if s = "" then d else s

/-- JS `Number(t.amount) || 0`: an absent field (`Number(undefined)` is
`NaN`) and a non-numeric value both coerce to `0`; a numeric value is kept
(`0 || 0` is `0`). -/
def numOrZero (o : Option (Option Int)) : Int :=
  (o.getD none).getD 0

/-- The `addTransaction` handler of `src/types.ts` lines 137-147. The
generated id (`Math.random().toString(36).substr(2, 9)`) and today's date
are explicit parameters. -/
def addTransaction (freshId today : String) (t : CandidateTransaction)
    (prev : List Transaction) : List Transaction :=
  { id := freshId
    date := strOrDefault t.date today
    amount := numOrZero t.amount
    category := strOrDefault t.category "其它"
    type := t.type.getD TransactionType.expense
    note := strOrDefault t.note "" } :: prev

/-- The store update of `deleteTransaction` (`src/types.ts` lines 149-153):
`prev.filter(t => t.id !== id)`. -/
def deleteTransaction (id : String) (prev : List Transaction) : List Transaction :=
  prev.filter (fun t => decide (t.id ≠ id))

/-- The `AIAnalysis` response shape of `src/types.ts`. -/
structure AIAnalysis where
  summary : String
  recommendations : List String

/-- JS `l.slice(-20)`: the last `min 20 l.length` elements. -/
def jsSliceNeg20 (l : List Transaction) : List Transaction :=
  l.drop (l.length - 20)

/-- One line of the analysis prompt, `src/types.ts` line 66:
`date: ±amount (category) - note`. -/
def renderLine (t : Transaction) : String :=
  t.date ++ ": " ++ (if t.type = TransactionType.expense then "-" else "+")
    ++ toString t.amount ++ " (" ++ t.category ++ ") - " ++ t.note

/-- The pure request-construction part of `GeminiService.analyzeSpending`
(`src/types.ts` lines 63-66): `none` means the empty-list short-circuit
fired and no request is issued; `some s` is the transaction summary block
embedded in the outgoing prompt. -/
def analyzeSpendingRequest (transactions : List Transaction) : Option String :=
  if transactions.length = 0 then none
  else some (String.intercalate "\n" ((jsSliceNeg20 transactions).map renderLine))

/-- `GeminiService.analyzeSpending` with the external service modelled as
a function from the request summary to an optional parsed response
(`none` covering every failure caught on lines 89-92). -/
def analyzeSpending (service : String → Option AIAnalysis)
    (transactions : List Transaction) : Option AIAnalysis :=
  match analyzeSpendingRequest transactions with
  | none => none
  | some req => service req

/-- First occurrences, in order, of the elements of a list that are not in
`seen`; characterises the name order produced by the category `reduce`. -/
def firstSeenFrom (seen : List String) : List String → List String
  | [] => []
  | x :: xs => if x ∈ seen then firstSeenFrom seen xs else x :: firstSeenFrom (x :: seen) xs

/-- First-seen-order deduplication of a list of category labels. -/
def firstSeenCategories (l : List String) : List String :=
  firstSeenFrom [] l

/-! ### Concrete sample data used by counterexamples and witnesses -/

/-- A family of pairwise-distinct transactions. -/
def mkSampleTx (i : Nat) : Transaction :=
  { id := toString i, date := "2024-01-01", amount := (i : Int), category := "Food",
    type := TransactionType.expense, note := "n" ++ toString i }

/-- A 21-element transaction list in the store's newest-first order:
the head is the newest record. -/
def newestFirst21 : List Transaction :=
  (List.range 21).map mkSampleTx

/-- A single zero-amount 2024 expense: it makes `yearlyCategoryData`
non-empty while `totalYearExpense` is `0`. -/
def zeroExpenseTx : Transaction :=
  { id := "z0", date := "2024-01-01", amount := 0, category := "Food",
    type := TransactionType.expense, note := "" }

/-- A December-2024 expense of 50 (the spec's monthly-data scenario). -/
def decemberTx : Transaction :=
  { id := "d1", date := "2024-12-15", amount := 50, category := "Food",
    type := TransactionType.expense, note := "" }

/-- A 2024 income of 200. -/
def sampleIncomeTx : Transaction :=
  { id := "a", date := "2024-01-02", amount := 200, category := "Salary",
    type := TransactionType.income, note := "" }

/-- A 2024 expense of 50. -/
def sampleExpenseTx : Transaction :=
  { id := "b", date := "2024-02-03", amount := 50, category := "Food",
    type := TransactionType.expense, note := "" }

/-- A candidate with every field absent. -/
def allMissingCandidate : CandidateTransaction :=
  { id := none, date := none, amount := none, category := none, type := none, note := none }

/-- A candidate carrying a negative numeric amount. -/
def negativeCandidate : CandidateTransaction :=
  { id := none, date := some "2024-01-01", amount := some (some (-50)),
    category := some "Food", type := some TransactionType.expense, note := none }

/-- The transaction `addTransaction` stores for `negativeCandidate`. -/
def negativeStoredTx : Transaction :=
  { id := "i9", date := "2024-01-01", amount := -50, category := "Food",
    type := TransactionType.expense, note := "" }

/-- A candidate carrying the non-negative numeric amount 7. -/
def positiveCandidate : CandidateTransaction :=
  { id := none, date := some "2024-01-01", amount := some (some 7),
    category := some "Food", type := some TransactionType.expense, note := none }

/-! ## Helper lemmas -/

theorem foldl_add_amount (l : List Transaction) (c : Int) :
    l.foldl (fun s t => s + t.amount) c = c + (l.map Transaction.amount).sum := by
  induction l generalizing c with
  | nil => simp
  | cons t ts ih => rw [List.foldl_cons, ih, List.map_cons, List.sum_cons]; ring

theorem sumAmounts_eq_sum_map (l : List Transaction) :
    sumAmounts l = (l.map Transaction.amount).sum := by
  simp [sumAmounts, foldl_add_amount]

theorem sumAmounts_cons (t : Transaction) (ts : List Transaction) :
    sumAmounts (t :: ts) = t.amount + sumAmounts ts := by
  simp [sumAmounts_eq_sum_map]

theorem sumValues_cons (c : CategoryAggregate) (cs : List CategoryAggregate) :
    sumValues (c :: cs) = c.value + sumValues cs := by
  simp [sumValues]

theorem sumValues_addToCategory (acc : List CategoryAggregate) (n : String) (a : Int) :
    sumValues (addToCategory acc n a) = sumValues acc + a := by
  induction acc with
  | nil => simp [addToCategory, sumValues]
  | cons c cs ih =>
      simp only [addToCategory]
      split_ifs with h
      · rw [sumValues_cons, sumValues_cons]; dsimp only; ring
      · rw [sumValues_cons, ih, sumValues_cons]; ring

theorem sumValues_foldl_addToCategory (l : List Transaction) (acc : List CategoryAggregate) :
    sumValues (l.foldl (fun acc t => addToCategory acc t.category t.amount) acc) =
      sumValues acc + sumAmounts l := by
  induction l generalizing acc with
  | nil => simp [sumAmounts]
  | cons t ts ih =>
      rw [List.foldl_cons, ih, sumValues_addToCategory, sumAmounts_cons]; ring

theorem sumValues_categoryAggregate (l : List Transaction) :
    sumValues (categoryAggregate l) = sumAmounts l := by
  have h := sumValues_foldl_addToCategory l []
  simpa [categoryAggregate, sumValues] using h

theorem insertByValueDesc_perm (x : CategoryAggregate) (l : List CategoryAggregate) :
    (insertByValueDesc x l).Perm (x :: l) := by
  induction l with
  | nil => simp [insertByValueDesc]
  | cons y ys ih =>
      simp only [insertByValueDesc]
      split_ifs with hlt
      · exact (ih.cons y).trans (List.Perm.swap x y ys)
      · exact List.Perm.refl _

theorem sortByValueDesc_perm (l : List CategoryAggregate) :
    (sortByValueDesc l).Perm l := by
  induction l with
  | nil => simp [sortByValueDesc]
  | cons x xs ih =>
      simp only [sortByValueDesc]
      exact (insertByValueDesc_perm x (sortByValueDesc xs)).trans (ih.cons x)

theorem sumValues_sortByValueDesc (l : List CategoryAggregate) :
    sumValues (sortByValueDesc l) = sumValues l :=
  List.Perm.sum_eq ((sortByValueDesc_perm l).map CategoryAggregate.value)

theorem stats_categoryData_def (ts : List Transaction) (currentMonth : String) :
    (stats ts currentMonth).categoryData =
      categoryAggregate ((ts.filter (fun t => jsStartsWith t.date currentMonth)).filter
        (fun t => decide (t.type = TransactionType.expense))) := rfl

theorem reportStats_yearlyCategoryData_def (ts : List Transaction) (reportYear : Int) :
    (reportStats ts reportYear).yearlyCategoryData =
      sortByValueDesc (categoryAggregate
        ((ts.filter (fun t => jsStartsWith t.date (toString reportYear))).filter
          (fun t => decide (t.type = TransactionType.expense)))) := rfl

/-! ## Claim theorems -/

/-- C6: for every transaction list (and every reference month / report
year), the sum of the CategoryAggregate `value` entries equals the total
sum of `amount` over the same filtered set, both for the dashboard's
`categoryData` and for the report's `yearlyCategoryData`. -/
theorem categoryAggregate_value_sum (ts : List Transaction) (currentMonth : String)
    (reportYear : Int) :
    sumValues (stats ts currentMonth).categoryData =
      sumAmounts ((ts.filter (fun t => jsStartsWith t.date currentMonth)).filter
        (fun t => decide (t.type = TransactionType.expense))) ∧
    sumValues (reportStats ts reportYear).yearlyCategoryData =
      sumAmounts ((ts.filter (fun t => jsStartsWith t.date (toString reportYear))).filter
        (fun t => decide (t.type = TransactionType.expense))) := by
  constructor
  · rw [stats_categoryData_def, sumValues_categoryAggregate]
  · rw [reportStats_yearlyCategoryData_def, sumValues_sortByValueDesc,
      sumValues_categoryAggregate]

/-- C5: on the empty transaction list, `analyzeSpending` returns null and
constructs no request, whatever the external service would answer. -/
theorem analyzeSpending_empty_returns_null (service : String → Option AIAnalysis) :
    analyzeSpending service [] = none ∧ analyzeSpendingRequest [] = none :=
  ⟨rfl, rfl⟩

/-- C2 (failing-input evaluation): with a single zero-amount 2024 expense,
`totalYearExpense` is `0`, yet a category entry is displayed and its
percentage is the non-finite JS value (modelled `none`), not `0`. -/
theorem categoryPercent_nonfinite_on_zero_expense :
    displayedCategoryPercents [zeroExpenseTx] 2024 = [none] ∧
    (reportStats [zeroExpenseTx] 2024).totalYearExpense = 0 ∧
    displayedCategoryPercents [zeroExpenseTx] 2024 ≠ [some 0] :=
  ⟨by decide, by decide, by decide⟩

/-- C1 (failing-input evaluation): on a 21-record newest-first list the
`slice(-20)` in `analyzeSpending` selects the 20 oldest records — the
newest record (the head) is not among the transactions sent for
analysis, although the code's own UI copy says the most recent 20 records
are analyzed. -/
theorem analyzeSpending_drops_newest_record :
    newestFirst21.length = 21 ∧
    newestFirst21.head? = some (mkSampleTx 0) ∧
    jsSliceNeg20 newestFirst21 = newestFirst21.drop 1 ∧
    mkSampleTx 0 ∉ jsSliceNeg20 newestFirst21 :=
  ⟨by decide, by decide, by decide, by decide⟩

theorem mem_insertByValueDesc {a x : CategoryAggregate} {l : List CategoryAggregate} :
    a ∈ insertByValueDesc x l ↔ a = x ∨ a ∈ l := by
  rw [(insertByValueDesc_perm x l).mem_iff, List.mem_cons]

theorem pairwise_insertByValueDesc {x : CategoryAggregate} {l : List CategoryAggregate}
    (h : l.Pairwise (fun a b => b.value ≤ a.value)) :
    (insertByValueDesc x l).Pairwise (fun a b => b.value ≤ a.value) := by
  induction l with
  | nil => simp [insertByValueDesc]
  | cons y ys ih =>
      simp only [insertByValueDesc]
      rcases List.pairwise_cons.mp h with ⟨hy, hys⟩
      split_ifs with hlt
      · refine List.pairwise_cons.mpr ⟨?_, ih hys⟩
        intro b hb
        rcases mem_insertByValueDesc.mp hb with rfl | hb'
        · exact le_of_lt hlt
        · exact hy b hb'
      · refine List.pairwise_cons.mpr ⟨?_, h⟩
        intro b hb
        rcases List.mem_cons.mp hb with rfl | hb'
        · exact le_of_not_lt hlt
        · exact (hy b hb').trans (le_of_not_lt hlt)

theorem pairwise_sortByValueDesc (l : List CategoryAggregate) :
    (sortByValueDesc l).Pairwise (fun a b => b.value ≤ a.value) := by
  induction l with
  | nil => simp [sortByValueDesc]
  | cons x xs ih =>
      simp only [sortByValueDesc]
      exact pairwise_insertByValueDesc ih

theorem filter_insertByValueDesc_of_eq {x : CategoryAggregate} {v : Int}
    (hx : x.value = v) (l : List CategoryAggregate) :
    (insertByValueDesc x l).filter (fun c => decide (c.value = v)) =
      x :: l.filter (fun c => decide (c.value = v)) := by
  induction l with
  | nil => simp [insertByValueDesc, List.filter_cons, hx]
  | cons y ys ih =>
      simp only [insertByValueDesc]
      split_ifs with hlt
      · have hy : ¬ y.value = v := by omega
        simp [List.filter_cons, hy, ih]
      · simp [List.filter_cons, hx]

theorem filter_insertByValueDesc_of_ne {x : CategoryAggregate} {v : Int}
    (hx : ¬ x.value = v) (l : List CategoryAggregate) :
    (insertByValueDesc x l).filter (fun c => decide (c.value = v)) =
      l.filter (fun c => decide (c.value = v)) := by
  induction l with
  | nil => simp [insertByValueDesc, List.filter_cons, hx]
  | cons y ys ih =>
      simp only [insertByValueDesc]
      split_ifs with hlt
      · simp only [List.filter_cons, ih]
      · simp [List.filter_cons, hx]

theorem filter_sortByValueDesc (l : List CategoryAggregate) (v : Int) :
    (sortByValueDesc l).filter (fun c => decide (c.value = v)) =
      l.filter (fun c => decide (c.value = v)) := by
  induction l with
  | nil => rfl
  | cons x xs ih =>
      simp only [sortByValueDesc]
      by_cases hx : x.value = v
      · rw [filter_insertByValueDesc_of_eq hx, ih]
        simp [List.filter_cons, hx]
      · rw [filter_insertByValueDesc_of_ne hx, ih]
        simp [List.filter_cons, hx]

theorem firstSeenFrom_congr {s₁ s₂ : List String} (h : ∀ a, a ∈ s₁ ↔ a ∈ s₂)
    (l : List String) : firstSeenFrom s₁ l = firstSeenFrom s₂ l := by
  induction l generalizing s₁ s₂ with
  | nil => rfl
  | cons x xs ih =>
      simp only [firstSeenFrom]
      by_cases hx : x ∈ s₁
      · rw [if_pos hx, if_pos ((h x).mp hx), ih h]
      · rw [if_neg hx, if_neg (fun hc => hx ((h x).mpr hc)), ih ?_]
        intro a
        simp only [List.mem_cons, h a]

theorem map_name_addToCategory (acc : List CategoryAggregate) (n : String) (a : Int) :
    (addToCategory acc n a).map CategoryAggregate.name =
      if n ∈ acc.map CategoryAggregate.name then acc.map CategoryAggregate.name
      else acc.map CategoryAggregate.name ++ [n] := by
  induction acc with
  | nil => simp [addToCategory]
  | cons c cs ih =>
      simp only [addToCategory]
      by_cases h : c.name = n
      · rw [if_pos h]
        simp [h]
      · rw [if_neg h]
        have hne : ¬ n = c.name := fun hc => h hc.symm
        simp only [List.map_cons, List.mem_cons, hne, false_or, ih]
        split_ifs with h2
        · rfl
        · rfl

theorem map_name_foldl_addToCategory (l : List Transaction) (acc : List CategoryAggregate) :
    (l.foldl (fun acc t => addToCategory acc t.category t.amount) acc).map
        CategoryAggregate.name =
      acc.map CategoryAggregate.name ++
        firstSeenFrom (acc.map CategoryAggregate.name) (l.map Transaction.category) := by
  induction l generalizing acc with
  | nil => simp [firstSeenFrom]
  | cons t ts ih =>
      rw [List.foldl_cons, ih, List.map_cons]
      rw [map_name_addToCategory]
      by_cases h : t.category ∈ acc.map CategoryAggregate.name
      · rw [if_pos h]
        simp only [firstSeenFrom, if_pos h]
      · rw [if_neg h]
        simp only [firstSeenFrom, if_neg h]
        have hcg : firstSeenFrom (acc.map CategoryAggregate.name ++ [t.category])
              (ts.map Transaction.category) =
            firstSeenFrom (t.category :: acc.map CategoryAggregate.name)
              (ts.map Transaction.category) := by
          refine firstSeenFrom_congr ?_ _
          intro b
          simp only [List.mem_append, List.mem_cons, List.mem_singleton]
          tauto
        rw [hcg, List.append_assoc, List.singleton_append]

theorem map_name_categoryAggregate (l : List Transaction) :
    (categoryAggregate l).map CategoryAggregate.name =
      firstSeenCategories (l.map Transaction.category) := by
  have h := map_name_foldl_addToCategory l []
  simpa [categoryAggregate, firstSeenCategories] using h

/-- C4: `yearlyCategoryData` is the first-seen-order category aggregate of
the year's expense transactions, stably sorted descending by summed value:
it is a permutation of the aggregate, pairwise descending in `value`, and
for every value the equal-valued entries appear in exactly their aggregate
(first-seen) order; the aggregate's names are the first-seen-order
deduplication of the filtered transactions' categories. -/
theorem yearlyCategoryData_sorted_stable (ts : List Transaction) (reportYear : Int) :
    (reportStats ts reportYear).yearlyCategoryData =
      sortByValueDesc (categoryAggregate
        ((ts.filter (fun t => jsStartsWith t.date (toString reportYear))).filter
          (fun t => decide (t.type = TransactionType.expense)))) ∧
    (categoryAggregate ((ts.filter (fun t => jsStartsWith t.date (toString reportYear))).filter
        (fun t => decide (t.type = TransactionType.expense)))).map CategoryAggregate.name =
      firstSeenCategories
        (((ts.filter (fun t => jsStartsWith t.date (toString reportYear))).filter
          (fun t => decide (t.type = TransactionType.expense))).map Transaction.category) ∧
    ((reportStats ts reportYear).yearlyCategoryData).Pairwise (fun a b => b.value ≤ a.value) ∧
    (∀ v : Int,
      ((reportStats ts reportYear).yearlyCategoryData).filter (fun c => decide (c.value = v)) =
        (categoryAggregate
          ((ts.filter (fun t => jsStartsWith t.date (toString reportYear))).filter
            (fun t => decide (t.type = TransactionType.expense)))).filter
          (fun c => decide (c.value = v))) ∧
    ((reportStats ts reportYear).yearlyCategoryData).Perm
      (categoryAggregate ((ts.filter (fun t => jsStartsWith t.date (toString reportYear))).filter
        (fun t => decide (t.type = TransactionType.expense)))) := by
  refine ⟨reportStats_yearlyCategoryData_def ts reportYear,
    map_name_categoryAggregate _, ?_, ?_, ?_⟩
  · rw [reportStats_yearlyCategoryData_def]
    exact pairwise_sortByValueDesc _
  · intro v
    rw [reportStats_yearlyCategoryData_def]
    exact filter_sortByValueDesc _ v
  · rw [reportStats_yearlyCategoryData_def]
    exact sortByValueDesc_perm _

theorem jsStartsWith_append_left {s a b : String} (h : jsStartsWith s (a ++ b) = true) :
    jsStartsWith s a = true := by
  simp only [jsStartsWith, List.isPrefixOf_iff_prefix, String.data_append] at *
  exact (List.prefix_append a.data b.data).trans h

theorem filter_year_month (ts : List Transaction) (ystr mstr : String) :
    (ts.filter (fun t => jsStartsWith t.date ystr)).filter
        (fun t => jsStartsWith t.date (ystr ++ "-" ++ mstr)) =
      ts.filter (fun t => jsStartsWith t.date (ystr ++ "-" ++ mstr)) := by
  rw [List.filter_filter]
  refine List.filter_congr ?_
  intro t _
  cases hm : jsStartsWith t.date (ystr ++ "-" ++ mstr) with
  | false => simp [hm]
  | true =>
      have hy : jsStartsWith t.date ystr = true :=
        jsStartsWith_append_left (jsStartsWith_append_left hm)
      simp [hm, hy]

theorem reportStats_monthlyData_def (ts : List Transaction) (reportYear : Int) :
    (reportStats ts reportYear).monthlyData = (List.range 12).map (fun i =>
      ({ name := pad2 (i + 1) ++ "月"
         income := sumAmounts
           (((ts.filter (fun t => jsStartsWith t.date (toString reportYear))).filter
             (fun t => jsStartsWith t.date (toString reportYear ++ "-" ++ pad2 (i + 1)))).filter
             (fun t => decide (t.type = TransactionType.income)))
         expense := sumAmounts
           (((ts.filter (fun t => jsStartsWith t.date (toString reportYear))).filter
             (fun t => jsStartsWith t.date (toString reportYear ++ "-" ++ pad2 (i + 1)))).filter
             (fun t => decide (t.type = TransactionType.expense))) } : MonthEntry)) := rfl

/-- C3: for every transaction list and target year, `monthlyData` has
exactly 12 entries, for months 1 through 12 in ascending order; the entry
of month `i + 1` is labelled with that month and its income/expense are
the sums of `amount` over the transactions of the whole list whose date
starts with the `YYYY-MM` prefix, split by type (so a month with no
matching transactions is a zero-valued entry, never omitted). -/
theorem reportStats_monthlyData_months (ts : List Transaction) (reportYear : Int) :
    (reportStats ts reportYear).monthlyData.length = 12 ∧
    ∀ i : Nat, i < 12 →
      (reportStats ts reportYear).monthlyData[i]? =
        some { name := pad2 (i + 1) ++ "月"
               income := sumAmounts
                 ((ts.filter (fun t =>
                     jsStartsWith t.date (toString reportYear ++ "-" ++ pad2 (i + 1)))).filter
                   (fun t => decide (t.type = TransactionType.income)))
               expense := sumAmounts
                 ((ts.filter (fun t =>
                     jsStartsWith t.date (toString reportYear ++ "-" ++ pad2 (i + 1)))).filter
                   (fun t => decide (t.type = TransactionType.expense))) } := by
  constructor
  · rw [reportStats_monthlyData_def, List.length_map, List.length_range]
  · intro i hi
    rw [reportStats_monthlyData_def, List.getElem?_map, List.getElem?_range hi,
      Option.map_some', filter_year_month]

/-- Witness for C3, the spec's scenario: year 2024 with a single December
expense of 50 yields a December entry of income 0 and expense 50, and a
zero-valued January entry. -/
theorem reportStats_monthlyData_months_witness :
    (reportStats [decemberTx] 2024).monthlyData[11]? =
      some { name := "12月", income := 0, expense := 50 } ∧
    (reportStats [decemberTx] 2024).monthlyData[0]? =
      some { name := "01月", income := 0, expense := 0 } :=
  ⟨((reportStats_monthlyData_months [decemberTx] 2024).2 11 (by norm_num)).trans (by decide),
   ((reportStats_monthlyData_months [decemberTx] 2024).2 0 (by norm_num)).trans (by decide)⟩

/-- C7: for every candidate, `addTransaction` prepends one new record and
leaves every existing record unchanged (newest-first preserved); the new
record carries the freshly generated id, and each missing field is filled
with its default: date — today, amount — 0 (also when the candidate's
amount is non-numeric), category — the fallback label, type — expense,
note — the empty string. -/
theorem addTransaction_defaults_prepend (freshId today : String)
    (c : CandidateTransaction) (prev : List Transaction) :
    ∃ nt : Transaction, addTransaction freshId today c prev = nt :: prev ∧
      nt.id = freshId ∧
      (c.date = none → nt.date = today) ∧
      ((c.amount = none ∨ c.amount = some none) → nt.amount = 0) ∧
      (c.category = none → nt.category = "其它") ∧
      (c.type = none → nt.type = TransactionType.expense) ∧
      (c.note = none → nt.note = "") := by
  refine ⟨_, rfl, rfl, ?_, ?_, ?_, ?_, ?_⟩
  · intro h
    simp [addTransaction, strOrDefault, h]
  · rintro (h | h) <;> simp [addTransaction, numOrZero, h]
  · intro h
    simp [addTransaction, strOrDefault, h]
  · intro h
    simp [addTransaction, h]
  · intro h
    simp [addTransaction, strOrDefault, h]

/-- Witness for C7: the all-missing candidate produces exactly the
all-defaults record, prepended to the (empty) list. -/
theorem addTransaction_defaults_prepend_witness :
    addTransaction "id1" "2024-05-01" allMissingCandidate [] =
      [{ id := "id1", date := "2024-05-01", amount := 0, category := "其它",
         type := TransactionType.expense, note := "" }] := by
  obtain ⟨nt, hcons, hid, hdate, hamt, hcat, hty, hnote⟩ :=
    addTransaction_defaults_prepend "id1" "2024-05-01" allMissingCandidate []
  have h1 := hdate rfl
  have h2 := hamt (Or.inl rfl)
  have h3 := hcat rfl
  have h4 := hty rfl
  have h5 := hnote rfl
  rw [hcons]
  cases nt
  simp only at hid h1 h2 h3 h4 h5
  simp [hid, h1, h2, h3, h4, h5]

/-- C8: the displayed savings rate is
`round((totalYearIncome - totalYearExpense) / totalYearIncome * 100)`
when `totalYearIncome > 0`, is `0` when `totalYearIncome == 0`, and is in
every case a finite integer (never the non-finite value modelled by
`none`). -/
theorem displayedSavingsRate_spec (ts : List Transaction) (reportYear : Int) :
    (0 < (reportStats ts reportYear).totalYearIncome →
      displayedSavingsRate ts reportYear =
        some (round (((((reportStats ts reportYear).totalYearIncome -
              (reportStats ts reportYear).totalYearExpense : Int)) : ℚ) /
            (((reportStats ts reportYear).totalYearIncome : Int) : ℚ) * 100))) ∧
    ((reportStats ts reportYear).totalYearIncome = 0 →
      displayedSavingsRate ts reportYear = some 0) ∧
    (∃ r : Int, displayedSavingsRate ts reportYear = some r) := by
  refine ⟨?_, ?_, ?_⟩
  · intro h
    have hne : ¬ (reportStats ts reportYear).totalYearIncome = 0 := by omega
    simp only [displayedSavingsRate, jsDivRound100, if_pos h, if_neg hne]
  · intro h
    have hnlt : ¬ 0 < (reportStats ts reportYear).totalYearIncome := by omega
    simp only [displayedSavingsRate, if_neg hnlt]
  · by_cases h : 0 < (reportStats ts reportYear).totalYearIncome
    · have hne : ¬ (reportStats ts reportYear).totalYearIncome = 0 := by omega
      refine ⟨round (((((reportStats ts reportYear).totalYearIncome -
            (reportStats ts reportYear).totalYearExpense : Int)) : ℚ) /
          (((reportStats ts reportYear).totalYearIncome : Int) : ℚ) * 100), ?_⟩
      simp only [displayedSavingsRate, jsDivRound100, if_pos h, if_neg hne]
    · exact ⟨0, by simp only [displayedSavingsRate, if_neg h]⟩

/-- Witness for C8: income 200 and expense 50 in 2024 display a savings
rate of `round(150 / 200 * 100) = 75`. -/
theorem displayedSavingsRate_spec_witness :
    displayedSavingsRate [sampleIncomeTx, sampleExpenseTx] 2024 = some 75 := by
  have h := (displayedSavingsRate_spec [sampleIncomeTx, sampleExpenseTx] 2024).1 (by decide)
  rw [h]
  have hI : (reportStats [sampleIncomeTx, sampleExpenseTx] 2024).totalYearIncome = 200 := by
    decide
  have hE : (reportStats [sampleIncomeTx, sampleExpenseTx] 2024).totalYearExpense = 50 := by
    decide
  rw [hI, hE]
  norm_num

/-- C9 counterexample: a candidate whose amount is the number `-50` is
stored with amount `-50 < 0` — `addTransaction` does not enforce
non-negativity of `amount`. -/
theorem addTransaction_negative_amount :
    (addTransaction "i9" "2024-01-01" negativeCandidate []).head? = some negativeStoredTx ∧
    negativeStoredTx.amount < 0 :=
  ⟨by decide, by decide⟩

/-- C9 amended: the stored amount is exactly the JS coercion
`Number(candidate.amount) || 0`, so it is non-negative whenever the
candidate's amount — if present and numeric — is non-negative (an absent
or non-numeric amount coerces to 0). -/
theorem addTransaction_amount_nonneg (freshId today : String) (c : CandidateTransaction)
    (prev : List Transaction) (h : ∀ n : Int, c.amount = some (some n) → 0 ≤ n) :
    ∃ nt : Transaction, addTransaction freshId today c prev = nt :: prev ∧
      nt.amount = numOrZero c.amount ∧ 0 ≤ nt.amount := by
  refine ⟨_, rfl, rfl, ?_⟩
  show (0 : Int) ≤ numOrZero c.amount
  match hc : c.amount with
  | none => simp [numOrZero]
  | some none => simp [numOrZero]
  | some (some n) => simpa [numOrZero] using h n hc

/-- Witness for C9 (amended): a candidate amount of 7. -/
theorem addTransaction_amount_nonneg_witness :
    (0 : Int) ≤ numOrZero positiveCandidate.amount := by
  obtain ⟨nt, hcons, heq, hpos⟩ :=
    addTransaction_amount_nonneg "i9b" "2024-01-01" positiveCandidate []
      (fun n hn => by
        simp only [positiveCandidate, Option.some.injEq] at hn
        omega)
  rw [← heq]
  exact hpos

/-- C10: `deleteTransaction id` keeps the surviving records in their
original relative order (the result is a sublist of the input), removes
exactly the records whose id equals the given id (no survivor has the id,
every record with a different id survives, with its multiplicity
unchanged), and is a no-op — not an error — when no record has the id. -/
theorem deleteTransaction_spec (id : String) (prev : List Transaction) :
    (deleteTransaction id prev).Sublist prev ∧
    (∀ t ∈ deleteTransaction id prev, t.id ≠ id) ∧
    (∀ t ∈ prev, t.id ≠ id → t ∈ deleteTransaction id prev) ∧
    (∀ t : Transaction,
      (deleteTransaction id prev).count t = if t.id = id then 0 else prev.count t) ∧
    ((∀ t ∈ prev, t.id ≠ id) → deleteTransaction id prev = prev) := by
  refine ⟨List.filter_sublist prev, ?_, ?_, ?_, ?_⟩
  · intro t ht
    have := (List.mem_filter.mp ht).2
    simpa using this
  · intro t ht hne
    exact List.mem_filter.mpr ⟨ht, by simpa using hne⟩
  · intro t
    by_cases h : t.id = id
    · rw [if_pos h]
      refine List.count_eq_zero.mpr ?_
      intro hmem
      have := (List.mem_filter.mp hmem).2
      simp [h] at this
    · rw [if_neg h]
      exact List.count_filter (by simpa using h)
  · intro hall
    refine List.filter_eq_self.mpr ?_
    intro t ht
    simpa using hall t ht

/-- Witness for C10: deleting an absent id is a no-op. -/
theorem deleteTransaction_spec_witness :
    deleteTransaction "zz" [sampleIncomeTx, sampleExpenseTx] =
      [sampleIncomeTx, sampleExpenseTx] :=
  (deleteTransaction_spec "zz" [sampleIncomeTx, sampleExpenseTx]).2.2.2.2 (by decide)

end SmartLedger
